import Mathlib

/-!
Shallow embedding of the `info` log-summarising pass of the
mongodb-log-tools repository, in its two variants:

* namespace `Info`    — the baseline variant (`info/info.go`): component
  allow-list {"CONTROL"}.
* namespace `InfoExt` — the extended variant (second version of the same
  module): allow-list {"CONTROL","REPL"}, with the extra "Process
  Details", "Node is a member of a replica set" and "New replica set
  config in use" cases.

Modelling conventions:

* A Go `any` value produced by `json.Unmarshal` is modelled by the
  inductive `Json` (numbers as `Int`: every numeric attribute the pass
  reads is integral; `float64`-to-`int` conversion is the identity on
  those).  A failed Go type assertion is a runtime panic, modelled by the
  `GoOutcome.panicked` constructor.
* `time.Time` is modelled by `GoTime`: an absolute instant together with
  the originating UTC offset in seconds, exactly the data the pass
  consumes (`Before`/`After` compare instants, `Zone` yields the offset).
  The textual rendering `Format(time.ANSIC)` is abstracted by an
  injective rendering of the instant; no claim depends on the date
  grammar.
* A raw input line is modelled by `LineInput`: its raw text plus the
  result of `json.Unmarshal` into `logJSONT` (`none` when unmarshalling
  fails) with the timestamp field already passed through `time.Parse`
  (`none` when that parse fails).
* `yaml.Marshal` never fails on values produced by `json.Unmarshal`
  (maps, slices, strings, numbers, booleans, nil), so `getConfig` is a
  total deterministic rendering wrapped in the source's `error` shape.
* Printing to stdout is modelled by accumulating the printed lines in an
  output list.
-/

/-- Dynamic JSON value, the model of a Go `any` produced by
`json.Unmarshal`.  Object fields keep their order; lookup takes the
first binding. -/
inductive Json where
  | null : Json
  | bool (b : Bool) : Json
  | num (n : Int) : Json
  | str (s : String) : Json
  | arr (elems : List Json) : Json
  | obj (fields : List (String × Json)) : Json
deriving Repr

/-- Go map indexing `m[k]`: `none` models the nil interface returned for
a missing key. -/
def lookupField (fields : List (String × Json)) (k : String) : Option Json :=
  match fields with
  | [] => none
  | (k', v) :: rest => if k' = k then some v else lookupField rest k

/-- Type assertion `.(map[string]any)`: succeeds only on an object. -/
def asObj : Option Json → Option (List (String × Json))
  | some (Json.obj fields) => some fields
  | _ => none

/-- Type assertion `.(float64)` followed by `int(...)`: succeeds only on
a JSON number. -/
def asNum : Option Json → Option Int
  | some (Json.num n) => some n
  | _ => none

/-- Type assertion `.(string)`: succeeds only on a JSON string. -/
def asStr : Option Json → Option String
  | some (Json.str s) => some s
  | _ => none

/-- Result of running a piece of Go code that can panic (a failed type
assertion aborts the process rather than returning an error). -/
inductive GoOutcome (α : Type) where
  | ok (a : α) : GoOutcome α
  | panicked : GoOutcome α
deriving Repr

/-- Model of `time.Time` as consumed by the pass: absolute instant and
the originating zone offset in seconds (`Zone` returns the latter). -/
structure GoTime where
  instant : Int
  offsetSec : Int
deriving Repr

/-- `a.Before(b)`: strict comparison of absolute instants. -/
def GoTime.before (a b : GoTime) : Bool := a.instant < b.instant

/-- `a.After(b)`: strict comparison of absolute instants. -/
def GoTime.after (a b : GoTime) : Bool := a.instant > b.instant

/-- `a.Sub(b)` as a count of instant units. -/
def GoTime.sub (a b : GoTime) : Int := a.instant - b.instant

/-- Abstraction of `t.UTC().Format(time.ANSIC)`: an injective rendering
of the absolute instant. -/
def GoTime.reprUTC (t : GoTime) : String := toString t.instant

/-- The zero `time.Time` value. -/
def GoTime.zero : GoTime := { instant := 0, offsetSec := 0 }

/-- `logT`: the decoded/interpreted fields of a log line. -/
structure logT where
  timeStamp : GoTime
deriving Repr

/-- `logJSONT` after unmarshalling and timestamp parsing: `date` is the
result of `time.Parse(timeLayout, lineObj.T.Date)` (`none` when that
fails); `attr` is `none` when the `attr` key is absent or null. -/
structure logJSONT where
  date : Option GoTime
  s : String
  c : String
  ctx : String
  id : Int
  msg : String
  attr : Option Json
  tags : List String
deriving Repr

/-- One raw input line: its text and the result of `json.Unmarshal` into
`logJSONT` (`none` when the line is not a valid JSON object of that
shape). -/
structure LineInput where
  raw : String
  parsed : Option logJSONT
deriving Repr

/-- The banner literal marking lines skipped by log rotation. -/
def skippingLines : String := "HEADER INCLUDED, NOW SKIPPING"

/-- Deterministic rendering of a JSON tree, the model of `yaml.Marshal`
on values produced by `json.Unmarshal`. -/
def yamlRender : Json → String
  | Json.null => "null"
  | Json.bool b => toString b
  | Json.num n => toString n
  | Json.str s => s
  | Json.arr elems =>
      "[" ++ String.intercalate ", " (elems.attach.map fun e => yamlRender e.1) ++ "]"
  | Json.obj fields =>
      "[" ++ String.intercalate ", "
        (fields.attach.map fun f => f.1.1 ++ ": " ++ yamlRender f.1.2) ++ "]"
decreasing_by
  · have := List.sizeOf_lt_of_mem e.2
    simp only [Json.arr.sizeOf_spec]
    omega
  · have h1 := List.sizeOf_lt_of_mem f.2
    have h2 : sizeOf f.1.2 < sizeOf f.1 := by
      obtain ⟨a, b⟩ := f.1
      simp only [Prod.mk.sizeOf_spec]
      omega
    simp only [Json.obj.sizeOf_spec]
    omega

/-- `getConfig`: wraps the document rendering in the source's
`([]byte, error)` shape; the rendering never fails on JSON-derived
values. -/
def getConfig (config : List (String × Json)) : Except String String :=
  Except.ok (yamlRender (Json.obj config))

/-- `math.MaxInt64`, the saturation bound of `strconv.Atoi` on a 64-bit
platform. -/
def maxInt64 : Int := 9223372036854775807

/-- `math.MinInt64`. -/
def minInt64 : Int := -9223372036854775808

/-- Outcome of `strconv.Atoi`: success, a syntax error (the returned
value is 0), or a range error (the returned value saturates at the
64-bit bound). -/
inductive AtoiRes where
  | ok (n : Int) : AtoiRes
  | errSyntax : AtoiRes
  | errRange (clamped : Int) : AtoiRes
deriving Repr, DecidableEq

/-- `math.MaxUint64`, the unsigned bound of `strconv.ParseUint`'s
accumulator. -/
def maxUint64 : Nat := 18446744073709551615

/-- Outcome of `strconv.ParseUint(s, 10, 64)`'s scan. -/
inductive ParseUintRes where
  | ok (n : Nat) : ParseUintRes
  | errSyntax : ParseUintRes
  | errRange : ParseUintRes
deriving Repr, DecidableEq

/-- The scanning loop of `strconv.ParseUint(s, 10, 64)`: characters are
consumed left to right; each character is first validated (a non-digit
is a syntax error at once) and then folded into the accumulator (the
first 64-bit overflow is a range error at once).  On either error the
remaining characters are never examined, so a string whose numeric
prefix overflows before its first invalid character is a range error,
not a syntax error. -/
def parseUintLoop : List Char → Nat → ParseUintRes
  | [], n => ParseUintRes.ok n
  | c :: rest, n =>
      if c.isDigit then
        if n * 10 + (c.toNat - 48) > maxUint64 then ParseUintRes.errRange
        else parseUintLoop rest (n * 10 + (c.toNat - 48))
      else ParseUintRes.errSyntax

/-- `strconv.ParseUint(s, 10, 64)` on the digit portion: empty input is
a syntax error, otherwise the scan above. -/
def goParseUint (cs : List Char) : ParseUintRes :=
  match cs with
  | [] => ParseUintRes.errSyntax
  | _ :: _ => parseUintLoop cs 0

/-- Model of Go `strconv.Atoi` = `ParseInt(s, 10, 0)` with a 64-bit
`int`: an optional sign, then the `ParseUint` scan, then the signed
bound checks.  On a syntax error the value is 0; on a range error the
value saturates at MaxInt64 / MinInt64.  (`Atoi`'s short-string fast
path never overflows and classifies identically.) -/
def goAtoi (s : String) : AtoiRes :=
  match s.toList with
  | [] => AtoiRes.errSyntax
  | c :: rest =>
      let signNeg := c = '-'
      let digits := if c = '-' ∨ c = '+' then rest else c :: rest
      match goParseUint digits with
      | ParseUintRes.errSyntax => AtoiRes.errSyntax
      | ParseUintRes.errRange =>
          if signNeg then AtoiRes.errRange minInt64 else AtoiRes.errRange maxInt64
      | ParseUintRes.ok n =>
          if signNeg then
            if n > 9223372036854775808 then AtoiRes.errRange minInt64
            else AtoiRes.ok (-(n : Int))
          else
            if n ≥ 9223372036854775808 then AtoiRes.errRange maxInt64
            else AtoiRes.ok (n : Int)

/-- The `int` value `strconv.Atoi` hands back when its error result is
discarded (`n, _ = strconv.Atoi(s)`). -/
def atoiValue : AtoiRes → Int
  | AtoiRes.ok n => n
  | AtoiRes.errSyntax => 0
  | AtoiRes.errRange clamped => clamped

/-- The summary's hour figure for a zone offset: Go `tzo/3600`
(truncating integer division). -/
def tzHoursGo (tzo : Int) : Int := Int.tdiv tzo 3600

/-- The summary's minute figure for a zone offset: Go `tzo%60`
(truncating remainder, sign of the dividend). -/
def tzMinutesGo (tzo : Int) : Int := Int.tmod tzo 60

/-- A log file's contents as the sequence of its lines. -/
abbrev LineList := List LineInput

/-- Result of one file's pass: the final pass state on success, an
error return, or a runtime panic. -/
inductive PassRes (σ : Type) where
  | ok (final : σ) : PassRes σ
  | fail (e : String) : PassRes σ
  | panicked : PassRes σ
deriving Repr

namespace Info

/-- `startupInfoT`, baseline variant; defaults are the Go zero values of
`var startupInfo startupInfoT`. -/
structure startupInfoT where
  isStartup : Bool := false
  complete : Bool := false
  timeStamp : GoTime := GoTime.zero
  processID : Int := 0
  port : Int := 0
  dbPath : String := ""
  hostName : String := ""
  version : String := ""
  distro : String := ""
  os : String := ""
  osVersion : String := ""
  configFile : String := ""
  options : Option (List (String × Json)) := none
  configYAML : Option String := none
deriving Repr

/-- `printStartup`, baseline variant: returns the updated state and the
lines printed. -/
def printStartup (info : startupInfoT) : startupInfoT × List String :=
  if !info.complete then (info, [])
  else
    ({ info with complete := false, isStartup := false },
     ["Startup | host: " ++ info.hostName ++ " | port: " ++ toString info.port ++
        " | dbPath: " ++ info.dbPath ++ " | pid: " ++ toString info.processID ++
        " | when: " ++ info.timeStamp.reprUTC ++ " UTC",
      "Version: " ++ info.version ++ " | Platform: " ++ info.distro ++
        " | OS: " ++ info.os ++ " | OS Version: " ++ info.osVersion,
      info.configYAML.getD ""])

/-- `logLine`, baseline variant.  The result carries the returned
`(*logT, error)` pair, the state after the call (the source mutates it
through a pointer), and the lines printed during the call; a failed
type assertion is `GoOutcome.panicked`. -/
def logLine (line : LineInput) (startupInfo : startupInfoT) :
    GoOutcome (Option logT × Option String × startupInfoT × List String) :=
  match line.parsed with
  | none =>
      if line.raw.startsWith skippingLines then
        GoOutcome.ok (none, none, startupInfo,
          ["Warning: lines skipped in log file! " ++ line.raw])
      else
        GoOutcome.ok (none, some "error parsing log line for JSON", startupInfo, [])
  | some lineObj =>
      match lineObj.date with
      | none => GoOutcome.ok (none, some "invalid timestamp", startupInfo, [])
      | some timeStamp =>
          let logMsg : logT := { timeStamp := timeStamp }
          match lineObj.attr with
          | none => GoOutcome.ok (some logMsg, none, startupInfo, [])
          | some attrAny =>
              if lineObj.c = "CONTROL" then
                match asObj (some attrAny) with
                | none => GoOutcome.panicked
                | some attr =>
                    if lineObj.msg = "MongoDB starting" then
                      match asNum (lookupField attr "pid"),
                            asNum (lookupField attr "port"),
                            asStr (lookupField attr "host"),
                            asStr (lookupField attr "dbPath") with
                      | some pid, some port, some host, some dbPath =>
                          GoOutcome.ok (some logMsg, none,
                            { startupInfo with
                              isStartup := true,
                              timeStamp := timeStamp, processID := pid,
                              port := port, hostName := host, dbPath := dbPath }, [])
                      | _, _, _, _ => GoOutcome.panicked
                    else if lineObj.msg = "Build Info" then
                      match asObj (lookupField attr "buildInfo") with
                      | none => GoOutcome.panicked
                      | some biattrb =>
                          match asStr (lookupField biattrb "version"),
                                asObj (lookupField biattrb "environment") with
                          | some version, some biattrenv =>
                              match asStr (lookupField biattrenv "distmod") with
                              | none => GoOutcome.panicked
                              | some distro =>
                                  GoOutcome.ok (some logMsg, none,
                                    { startupInfo with
                                      version := version,
                                      distro := distro }, [])
                          | _, _ => GoOutcome.panicked
                    else if lineObj.msg = "Operating System" then
                      match asObj (lookupField attr "os") with
                      | none => GoOutcome.panicked
                      | some osattros =>
                          match asStr (lookupField osattros "name"),
                                asStr (lookupField osattros "version") with
                          | some osName, some osVersion =>
                              GoOutcome.ok (some logMsg, none,
                                { startupInfo with
                                  os := osName,
                                  osVersion := osVersion }, [])
                          | _, _ => GoOutcome.panicked
                    else if lineObj.msg = "Options set by command line" then
                      match asObj (lookupField attr "options") with
                      | none => GoOutcome.panicked
                      | some opattropts =>
                          match asStr (lookupField opattropts "config") with
                          | none => GoOutcome.panicked
                          | some configFile =>
                              GoOutcome.ok (some logMsg, none,
                                { startupInfo with
                                  configFile := configFile,
                                  options := some opattropts,
                                  configYAML :=
                                    match getConfig opattropts with
                                    | Except.ok y => some y
                                    | Except.error _ => none,
                                  complete := true }, [])
                    else GoOutcome.ok (some logMsg, none, startupInfo, [])
              else GoOutcome.ok (some logMsg, none, startupInfo, [])

/-- The loop-local state of `List`: line counter, first-record flag,
running bounds, the accumulator, and everything printed so far. -/
structure PassState where
  lineCount : Nat
  firstTime : Bool
  earliest : GoTime
  latest : GoTime
  startupInfo : startupInfoT
  out : List String
deriving Repr

/-- The initial loop state of `List`. -/
def initialPassState : PassState :=
  { lineCount := 0, firstTime := true, earliest := GoTime.zero,
    latest := GoTime.zero, startupInfo := {}, out := [] }

/-- The per-record earliest/latest update of `List`'s loop body
(the `firstTime` / `Before` / `After` block). -/
def updateBounds (ps : PassState) (logMsg : logT) : PassState :=
  if ps.firstTime then
    { ps with
      firstTime := false,
      earliest := logMsg.timeStamp, latest := logMsg.timeStamp }
  else
    let psE :=
      if logMsg.timeStamp.before ps.earliest then
        { ps with earliest := logMsg.timeStamp }
      else ps
    if logMsg.timeStamp.after psE.latest then
      { psE with latest := logMsg.timeStamp }
    else psE

/-- The `if startupInfo.complete { printStartup(&startupInfo) }` step of
`List`'s loop body. -/
def reportIfComplete (ps : PassState) : PassState :=
  if ps.startupInfo.complete then
    let pr := printStartup ps.startupInfo
    { ps with startupInfo := pr.1, out := ps.out ++ pr.2 }
  else ps

/-- The scanning loop of `List`, baseline variant.  Note the source
checks `logLine == nil` (and `continue`s) before checking `err != nil`,
so the `PassRes.fail` branch requires a non-nil record together with a
non-nil error. -/
def listLoop (fileName : String) : LineList → PassState → PassRes PassState
  | [], ps => PassRes.ok ps
  | l :: rest, ps =>
      match logLine l ps.startupInfo with
      | GoOutcome.panicked => PassRes.panicked
      | GoOutcome.ok (logMsgOpt, err, st, printed) =>
          let ps1 := { ps with
                       lineCount := ps.lineCount + 1,
                       startupInfo := st, out := ps.out ++ printed }
          match logMsgOpt with
          | none => listLoop fileName rest ps1
          | some logMsg =>
              match err with
              | some e =>
                  PassRes.fail ("error in line from log file '" ++ fileName ++
                    "': " ++ e ++ "\nLine is: " ++ l.raw)
              | none =>
                  listLoop fileName rest (reportIfComplete (updateBounds ps1 logMsg))

/-- `List`, baseline variant, given the file's lines (file opening and
the scanner are the out-of-scope collaborators).  On success the final
summary lines are appended to the output. -/
def List (fileName : String) (lines : LineList) : PassRes PassState :=
  match listLoop fileName lines initialPassState with
  | PassRes.ok ps =>
      PassRes.ok { ps with
        out := ps.out ++
        [toString ps.lineCount ++ " lines in log file " ++ fileName,
         "Log file timezone is UTC " ++ toString (tzHoursGo ps.earliest.offsetSec) ++
           " hours " ++ toString (tzMinutesGo ps.earliest.offsetSec) ++ " minutes)",
         "UTC time range in log file: " ++ ps.earliest.reprUTC ++ " -to- " ++
           ps.latest.reprUTC ++ " (" ++ toString (ps.latest.sub ps.earliest) ++ ")"] }
  | PassRes.fail e => PassRes.fail e
  | PassRes.panicked => PassRes.panicked

end Info

namespace InfoExt

/-- `startupInfoT`, extended variant: adds the replica-set fields. -/
structure startupInfoT where
  isStartup : Bool := false
  complete : Bool := false
  timeStamp : GoTime := GoTime.zero
  processID : Int := 0
  port : Int := 0
  dbPath : String := ""
  hostName : String := ""
  version : String := ""
  distro : String := ""
  os : String := ""
  osVersion : String := ""
  configFile : String := ""
  options : Option (List (String × Json)) := none
  configYAML : Option String := none
  memberState : String := ""
  replsetConfig : Option (List (String × Json)) := none
  replsetConfigYAML : Option String := none
deriving Repr

/-- `printStartup`, extended variant: distinguishes "Start up" from
"Log rotation" and appends the replica block when `replsetConfig` is
non-nil. -/
def printStartup (info : startupInfoT) : startupInfoT × List String :=
  if !info.complete then (info, [])
  else
    let startMsg := if info.isStartup then "Start up" else "Log rotation"
    ({ info with complete := false, isStartup := false },
     [startMsg ++ " | host: " ++ info.hostName ++ " | port: " ++ toString info.port ++
        " | dbPath: " ++ info.dbPath ++ " | pid: " ++ toString info.processID ++
        " | when: " ++ info.timeStamp.reprUTC ++ " UTC",
      "Version: " ++ info.version ++ " | Platform: " ++ info.distro ++
        " | OS: " ++ info.os ++ " | OS Version: " ++ info.osVersion,
      info.configYAML.getD ""] ++
     (match info.replsetConfig with
      | some _ => ["Member state: " ++ info.memberState,
                   info.replsetConfigYAML.getD ""]
      | none => []))

/-- `logLine`, extended variant: allow-list {"CONTROL","REPL"} and the
extra "Process Details", replica-membership and replica-config cases. -/
def logLine (line : LineInput) (startupInfo : startupInfoT) :
    GoOutcome (Option logT × Option String × startupInfoT × List String) :=
  match line.parsed with
  | none =>
      if line.raw.startsWith skippingLines then
        GoOutcome.ok (none, none, startupInfo,
          ["Warning: lines skipped in log file! " ++ line.raw])
      else
        GoOutcome.ok (none, some "error parsing log line for JSON", startupInfo, [])
  | some lineObj =>
      match lineObj.date with
      | none => GoOutcome.ok (none, some "invalid timestamp", startupInfo, [])
      | some timeStamp =>
          let logMsg : logT := { timeStamp := timeStamp }
          match lineObj.attr with
          | none => GoOutcome.ok (some logMsg, none, startupInfo, [])
          | some attrAny =>
              if lineObj.c = "CONTROL" ∨ lineObj.c = "REPL" then
                match asObj (some attrAny) with
                | none => GoOutcome.panicked
                | some attr =>
                    if lineObj.msg = "MongoDB starting" then
                      match asNum (lookupField attr "pid"),
                            asNum (lookupField attr "port"),
                            asStr (lookupField attr "host"),
                            asStr (lookupField attr "dbPath") with
                      | some pid, some port, some host, some dbPath =>
                          GoOutcome.ok (some logMsg, none,
                            { startupInfo with
                              isStartup := true,
                              timeStamp := timeStamp, processID := pid,
                              port := port, hostName := host, dbPath := dbPath }, [])
                      | _, _, _, _ => GoOutcome.panicked
                    else if lineObj.msg = "Process Details" then
                      match asStr (lookupField attr "pid"),
                            asNum (lookupField attr "port"),
                            asStr (lookupField attr "host") with
                      | some pidStr, some port, some host =>
                          GoOutcome.ok (some logMsg, none,
                            { startupInfo with
                              isStartup := false,
                              timeStamp := timeStamp,
                              processID := atoiValue (goAtoi pidStr),
                              port := port, hostName := host }, [])
                      | _, _, _ => GoOutcome.panicked
                    else if lineObj.msg = "Build Info" then
                      match asObj (lookupField attr "buildInfo") with
                      | none => GoOutcome.panicked
                      | some biattrb =>
                          match asStr (lookupField biattrb "version"),
                                asObj (lookupField biattrb "environment") with
                          | some version, some biattrenv =>
                              match asStr (lookupField biattrenv "distmod") with
                              | none => GoOutcome.panicked
                              | some distro =>
                                  GoOutcome.ok (some logMsg, none,
                                    { startupInfo with
                                      version := version,
                                      distro := distro }, [])
                          | _, _ => GoOutcome.panicked
                    else if lineObj.msg = "Operating System" then
                      match asObj (lookupField attr "os") with
                      | none => GoOutcome.panicked
                      | some osattros =>
                          match asStr (lookupField osattros "name"),
                                asStr (lookupField osattros "version") with
                          | some osName, some osVersion =>
                              GoOutcome.ok (some logMsg, none,
                                { startupInfo with
                                  os := osName,
                                  osVersion := osVersion }, [])
                          | _, _ => GoOutcome.panicked
                    else if lineObj.msg = "Node is a member of a replica set" then
                      match asStr (lookupField attr "memberState"),
                            asObj (lookupField attr "config") with
                      | some memberState, some config =>
                          GoOutcome.ok (some logMsg, none,
                            { startupInfo with
                              memberState := memberState,
                              replsetConfig := some config,
                              replsetConfigYAML :=
                                match getConfig config with
                                | Except.ok y => some y
                                | Except.error _ => none }, [])
                      | _, _ => GoOutcome.panicked
                    else if lineObj.msg = "New replica set config in use" then
                      match asObj (lookupField attr "config") with
                      | none => GoOutcome.panicked
                      | some rsConfig =>
                          match getConfig rsConfig with
                          | Except.ok rsConfigYAML =>
                              GoOutcome.ok (some logMsg, none, startupInfo,
                                ["New replica set config: " ++ timeStamp.reprUTC ++
                                  "\n" ++ rsConfigYAML])
                          | Except.error _ =>
                              GoOutcome.ok (some logMsg, none,
                                { startupInfo with replsetConfigYAML := none },
                                ["New replica set config: " ++ timeStamp.reprUTC ++
                                  "\n" ++ ""])
                    else if lineObj.msg = "Options set by command line" then
                      match asObj (lookupField attr "options") with
                      | none => GoOutcome.panicked
                      | some opattropts =>
                          match asStr (lookupField opattropts "config") with
                          | none => GoOutcome.panicked
                          | some configFile =>
                              GoOutcome.ok (some logMsg, none,
                                { startupInfo with
                                  configFile := configFile,
                                  options := some opattropts,
                                  configYAML :=
                                    match getConfig opattropts with
                                    | Except.ok y => some y
                                    | Except.error _ => none,
                                  complete := true }, [])
                    else GoOutcome.ok (some logMsg, none, startupInfo, [])
              else GoOutcome.ok (some logMsg, none, startupInfo, [])

/-- The loop-local state of `List`, extended variant. -/
structure PassState where
  lineCount : Nat
  firstTime : Bool
  earliest : GoTime
  latest : GoTime
  startupInfo : startupInfoT
  out : List String
deriving Repr

/-- The initial loop state of `List`, extended variant. -/
def initialPassState : PassState :=
  { lineCount := 0, firstTime := true, earliest := GoTime.zero,
    latest := GoTime.zero, startupInfo := {}, out := [] }

/-- The scanning loop of `List`, extended variant; same control flow as
the baseline (`logLine == nil` is checked before `err != nil`). -/
def listLoop (fileName : String) : LineList → PassState → PassRes PassState
  | [], ps => PassRes.ok ps
  | l :: rest, ps =>
      match logLine l ps.startupInfo with
      | GoOutcome.panicked => PassRes.panicked
      | GoOutcome.ok (logMsgOpt, err, st, printed) =>
          let ps1 := { ps with
                       lineCount := ps.lineCount + 1,
                       startupInfo := st, out := ps.out ++ printed }
          match logMsgOpt with
          | none => listLoop fileName rest ps1
          | some logMsg =>
              match err with
              | some e =>
                  PassRes.fail ("error in line from log file '" ++ fileName ++
                    "': " ++ e ++ "\nLine is: " ++ l.raw)
              | none =>
                  let ps2 :=
                    if ps1.firstTime then
                      { ps1 with
                        firstTime := false,
                        earliest := logMsg.timeStamp, latest := logMsg.timeStamp }
                    else
                      let psE :=
                        if logMsg.timeStamp.before ps1.earliest then
                          { ps1 with earliest := logMsg.timeStamp }
                        else ps1
                      if logMsg.timeStamp.after psE.latest then
                        { psE with latest := logMsg.timeStamp }
                      else psE
                  let ps3 :=
                    if ps2.startupInfo.complete then
                      let pr := printStartup ps2.startupInfo
                      { ps2 with startupInfo := pr.1, out := ps2.out ++ pr.2 }
                    else ps2
                  listLoop fileName rest ps3

/-- `List`, extended variant. -/
def List (fileName : String) (lines : LineList) : PassRes PassState :=
  match listLoop fileName lines initialPassState with
  | PassRes.ok ps =>
      PassRes.ok { ps with
        out := ps.out ++
        [toString ps.lineCount ++ " lines in log file " ++ fileName,
         "Log file timezone is UTC " ++ toString (tzHoursGo ps.earliest.offsetSec) ++
           " hours " ++ toString (tzMinutesGo ps.earliest.offsetSec) ++ " minutes)",
         "UTC time range in log file: " ++ ps.earliest.reprUTC ++ " -to- " ++
           ps.latest.reprUTC ++ " (" ++ toString (ps.latest.sub ps.earliest) ++ ")"] }
  | PassRes.fail e => PassRes.fail e
  | PassRes.panicked => PassRes.panicked

end InfoExt

/-- The timestamp of the record a line decodes to, when it decodes to
one: the line must unmarshal and its timestamp must parse. -/
def lineDate (l : LineInput) : Option GoTime :=
  match l.parsed with
  | some o => o.date
  | none => none

/-- The timestamps of all decodable records of a file, in file order. -/
def decodedTimes (lines : LineList) : List GoTime :=
  lines.filterMap lineDate

/-- The record `logLine` hands back for a line when it does not panic:
`none` for banner, unmarshal-failure and bad-timestamp lines. -/
def lineRecord (l : LineInput) : Option logT :=
  (lineDate l).map fun ts => { timeStamp := ts }

/-- The caller-visible part of a baseline `logLine` call: its returned
`(*logT, error)` pair and what it printed, with the accumulator state
projected away. -/
def stepViewBase
    (r : GoOutcome (Option logT × Option String × Info.startupInfoT × List String)) :
    GoOutcome (Option logT × Option String × List String) :=
  match r with
  | GoOutcome.ok (a, b, _, d) => GoOutcome.ok (a, b, d)
  | GoOutcome.panicked => GoOutcome.panicked

/-- The caller-visible part of an extended `logLine` call. -/
def stepViewExt
    (r : GoOutcome (Option logT × Option String × InfoExt.startupInfoT × List String)) :
    GoOutcome (Option logT × Option String × List String) :=
  match r with
  | GoOutcome.ok (a, b, _, d) => GoOutcome.ok (a, b, d)
  | GoOutcome.panicked => GoOutcome.panicked

/-- A line is an "options" record for a given component allow-list:
it unmarshals, its attribute bag is present, its component tag is
allow-listed and its message text is "Options set by command line". -/
def isOptionsLineB (allowed : List String) (l : LineInput) : Bool :=
  match l.parsed with
  | some o =>
      o.attr.isSome && allowed.contains o.c &&
        (o.msg == "Options set by command line")
  | none => false

/-- A line whose bytes are not valid structured-record JSON and do not
carry the banner literal. -/
def badJsonLine : LineInput := { raw := "not valid JSON", parsed := none }

/-- A decodable record line with no attribute bag, timestamped at
instant 42 UTC. -/
def goodRecordLine : LineInput :=
  LineInput.mk ""
    (some (logJSONT.mk (some (GoTime.mk 42 0)) "I" "NETWORK" "conn1" 22943
      "client metadata" none []))

/-- A "MongoDB starting" record whose attribute bag is missing the
required "pid" key. -/
def badStartLine : LineInput :=
  LineInput.mk ""
    (some (logJSONT.mk (some (GoTime.mk 0 0)) "I" "CONTROL" "initandlisten" 4615611
      "MongoDB starting"
      (some (Json.obj [("port", Json.num 27017), ("host", Json.str "h1"),
                       ("dbPath", Json.str "/data/db")])) []))

/-- A decodable record line whose timestamp carries a +05:30 zone offset
(19800 seconds). -/
def tzLine : LineInput :=
  LineInput.mk ""
    (some (logJSONT.mk (some (GoTime.mk 0 19800)) "I" "NETWORK" "conn1" 22943
      "client metadata" none []))

/-- A baseline accumulator state with `complete` set. -/
def sampleCompleteBase : Info.startupInfoT :=
  { complete := true, isStartup := true, hostName := "h1", port := 27017,
    dbPath := "/data/db", processID := 100, version := "6.0.1",
    configYAML := some "cfg" }

/-- An extended accumulator state with `complete` set and replica data
present. -/
def sampleCompleteExt : InfoExt.startupInfoT :=
  { complete := true, isStartup := false, hostName := "h1", port := 27017,
    dbPath := "/data/db", processID := 100, version := "6.0.1",
    memberState := "PRIMARY",
    replsetConfig := some [("_id", Json.str "rs0")],
    replsetConfigYAML := some "rs0cfg", configYAML := some "cfg" }

/-- An "Options set by command line" record (component CONTROL,
well-shaped bag). -/
def optionsLine : LineInput :=
  LineInput.mk ""
    (some (logJSONT.mk (some (GoTime.mk 7 0)) "I" "CONTROL" "initandlisten" 21951
      "Options set by command line"
      (some (Json.obj
        [("options", Json.obj [("config", Json.str "/etc/mongod.conf"),
                               ("port", Json.num 27017)])])) []))

/-- A "New replica set config in use" record (component REPL,
well-shaped bag). -/
def newRsConfigLine : LineInput :=
  LineInput.mk ""
    (some (logJSONT.mk (some (GoTime.mk 9 0)) "I" "REPL" "conn3" 21392
      "New replica set config in use"
      (some (Json.obj
        [("config", Json.obj [("_id", Json.str "rs0"),
                              ("version", Json.num 2)]),
         ("numMembers", Json.num 3)])) []))

/-- A "Process Details" record whose pid string is not syntactically an
integer. -/
def badPidLine : LineInput :=
  LineInput.mk ""
    (some (logJSONT.mk (some (GoTime.mk 5 0)) "I" "CONTROL" "initandlisten" 4615611
      "Process Details"
      (some (Json.obj [("pid", Json.str "one6875"),
                       ("port", Json.num 27017),
                       ("host", Json.str "pd3lon-mdb-07")])) []))

/-- A "Process Details" record whose pid string is a syntactically valid
integer that overflows a 64-bit int. -/
def hugePidLine : LineInput :=
  LineInput.mk ""
    (some (logJSONT.mk (some (GoTime.mk 5 0)) "I" "CONTROL" "initandlisten" 4615611
      "Process Details"
      (some (Json.obj [("pid", Json.str "99999999999999999999"),
                       ("port", Json.num 27017),
                       ("host", Json.str "pd3lon-mdb-07")])) []))

/-- A "Process Details" record whose pid string has an overflowing
numeric prefix followed by an invalid character: not an integer in any
reading, yet `strconv.Atoi` reports a range error, not a syntax
error. -/
def hugePidXLine : LineInput :=
  LineInput.mk ""
    (some (logJSONT.mk (some (GoTime.mk 5 0)) "I" "CONTROL" "initandlisten" 4615611
      "Process Details"
      (some (Json.obj [("pid", Json.str "99999999999999999999x"),
                       ("port", Json.num 27017),
                       ("host", Json.str "pd3lon-mdb-07")])) []))

/-- The baseline accumulator state after processing `optionsLine` from
the zero state. -/
def stBaseAfterOptions : Info.startupInfoT :=
  match Info.logLine optionsLine {} with
  | GoOutcome.ok (_, _, st, _) => st
  | GoOutcome.panicked => {}

/-- The extended accumulator state after processing `optionsLine` from
the zero state. -/
def stExtAfterOptions : InfoExt.startupInfoT :=
  match InfoExt.logLine optionsLine {} with
  | GoOutcome.ok (_, _, st, _) => st
  | GoOutcome.panicked => {}

/-- The final pass state of the baseline `List` on the one-record file
`[goodRecordLine]`. -/
def psSingle : Info.PassState :=
  match Info.List "single.log" [goodRecordLine] with
  | PassRes.ok ps => ps
  | PassRes.fail _ => Info.initialPassState
  | PassRes.panicked => Info.initialPassState

/-- C5: when `complete` is false, `printStartup` is a no-op in both
variants: it prints nothing and returns the state unchanged. -/
theorem printStartup_noop_when_incomplete
    (b : Info.startupInfoT) (e : InfoExt.startupInfoT)
    (hb : b.complete = false) (he : e.complete = false) :
    Info.printStartup b = (b, []) ∧ InfoExt.printStartup e = (e, []) := by
  constructor
  · simp [Info.printStartup, hb]
  · simp [InfoExt.printStartup, he]

/-- C5 witness: the no-op at the zero accumulator states. -/
theorem printStartup_noop_when_incomplete_witness :
    Info.printStartup {} = ({}, []) ∧ InfoExt.printStartup {} = ({}, []) :=
  printStartup_noop_when_incomplete {} {} rfl rfl

/-- C4: when `complete` is true, `printStartup` resets exactly the
`complete` and `isStartup` flags and leaves every other field of the
accumulator (including the replica-set fields of the extended variant)
unchanged. -/
theorem printStartup_resets_flags_only
    (b : Info.startupInfoT) (e : InfoExt.startupInfoT)
    (hb : b.complete = true) (he : e.complete = true) :
    (Info.printStartup b).1 = { b with complete := false, isStartup := false } ∧
    (InfoExt.printStartup e).1 = { e with complete := false, isStartup := false } := by
  constructor
  · simp [Info.printStartup, hb]
  · simp [InfoExt.printStartup, he]

/-- C4 witness: the reset at concrete completed states. -/
theorem printStartup_resets_flags_only_witness :
    (Info.printStartup sampleCompleteBase).1 =
      { sampleCompleteBase with complete := false, isStartup := false } ∧
    (InfoExt.printStartup sampleCompleteExt).1 =
      { sampleCompleteExt with complete := false, isStartup := false } :=
  printStartup_resets_flags_only sampleCompleteBase sampleCompleteExt rfl rfl

/-- C3 (code bug evaluation): on a recognized "MongoDB starting" record
whose bag is missing the required "pid" key, both variants of `logLine`
panic (a failed type assertion crashing the process) instead of
returning an error to the caller. -/
theorem logLine_panics_on_missing_required_field :
    Info.logLine badStartLine {} = GoOutcome.panicked ∧
    InfoExt.logLine badStartLine {} = GoOutcome.panicked :=
  ⟨rfl, rfl⟩

set_option maxRecDepth 100000 in
/-- C1 (code bug evaluation): a malformed (non-banner) line does not
abort the pass.  `List` checks the nil record before the error, so the
decode error is swallowed, the pass succeeds, counts both lines, and
processes the record that follows the malformed line (the reported
range comes from it). -/
theorem list_swallows_malformed_line :
    Info.List "mongod.log" [badJsonLine, goodRecordLine] =
      PassRes.ok
        { lineCount := 2, firstTime := false,
          earliest := { instant := 42, offsetSec := 0 },
          latest := { instant := 42, offsetSec := 0 },
          startupInfo := {},
          out := ["2 lines in log file mongod.log",
                  "Log file timezone is UTC 0 hours 0 minutes)",
                  "UTC time range in log file: 42 -to- 42 (0)"] } :=
  rfl

set_option maxRecDepth 100000 in
/-- C7 (code bug evaluation): for an earliest timestamp at offset
+05:30 (19800 s), the summary computes minutes as `tzo%60 = 0`, not the
correct `(tzo/60)%60 = 30`: the pass reports "5 hours 0 minutes". -/
theorem tz_summary_minutes_wrong :
    tzHoursGo 19800 = 5 ∧ tzMinutesGo 19800 = 0 ∧
    Int.tmod (Int.tdiv 19800 60) 60 = 30 ∧
    Info.List "tz.log" [tzLine] =
      PassRes.ok
        { lineCount := 1, firstTime := false,
          earliest := { instant := 0, offsetSec := 19800 },
          latest := { instant := 0, offsetSec := 19800 },
          startupInfo := {},
          out := ["1 lines in log file tz.log",
                  "Log file timezone is UTC 5 hours 0 minutes)",
                  "UTC time range in log file: 0 -to- 0 (0)"] } :=
  ⟨rfl, rfl, rfl, rfl⟩

set_option maxHeartbeats 4000000 in
set_option maxRecDepth 100000 in
/-- C9: the caller-visible result of `logLine` — the returned
`(*logT, error)` pair, the banner-skip/panic classification and what is
printed — depends only on the line, never on the accumulator state, in
both variants. -/
theorem logLine_state_independent (l : LineInput)
    (s1 s2 : Info.startupInfoT) (t1 t2 : InfoExt.startupInfoT) :
    stepViewBase (Info.logLine l s1) = stepViewBase (Info.logLine l s2) ∧
    stepViewExt (InfoExt.logLine l t1) = stepViewExt (InfoExt.logLine l t2) := by
  obtain ⟨raw, parsed⟩ := l
  constructor
  · cases parsed with
    | none =>
        dsimp only [Info.logLine]
        split <;> rfl
    | some o =>
        obtain ⟨date, sv, cv, ctxv, idv, msgv, attrv, tagsv⟩ := o
        cases date with
        | none => rfl
        | some ts =>
            cases attrv with
            | none => rfl
            | some a =>
                dsimp only [Info.logLine]
                by_cases hc : cv = "CONTROL"
                · simp only [if_pos hc]
                  cases ha : asObj (some a) with
                  | none => rfl
                  | some fields =>
                      by_cases h1 : msgv = "MongoDB starting"
                      · simp only [if_pos h1]
                        split <;> rfl
                      · simp only [if_neg h1]
                        by_cases h3 : msgv = "Build Info"
                        · simp only [if_pos h3]
                          repeat' split
                          all_goals rfl
                        · simp only [if_neg h3]
                          by_cases h4 : msgv = "Operating System"
                          · simp only [if_pos h4]
                            repeat' split
                            all_goals rfl
                          · simp only [if_neg h4]
                            by_cases h7 : msgv = "Options set by command line"
                            · simp only [if_pos h7]
                              repeat' split
                              all_goals rfl
                            · simp only [if_neg h7]
                              rfl
                · simp only [if_neg hc]
                  rfl
  · cases parsed with
    | none =>
        dsimp only [InfoExt.logLine]
        split <;> rfl
    | some o =>
        obtain ⟨date, sv, cv, ctxv, idv, msgv, attrv, tagsv⟩ := o
        cases date with
        | none => rfl
        | some ts =>
            cases attrv with
            | none => rfl
            | some a =>
                dsimp only [InfoExt.logLine]
                by_cases hc : cv = "CONTROL" ∨ cv = "REPL"
                · simp only [if_pos hc]
                  cases ha : asObj (some a) with
                  | none => rfl
                  | some fields =>
                      by_cases h1 : msgv = "MongoDB starting"
                      · simp only [if_pos h1]
                        split <;> rfl
                      · simp only [if_neg h1]
                        by_cases h2 : msgv = "Process Details"
                        · simp only [if_pos h2]
                          split <;> rfl
                        · simp only [if_neg h2]
                          by_cases h3 : msgv = "Build Info"
                          · simp only [if_pos h3]
                            repeat' split
                            all_goals rfl
                          · simp only [if_neg h3]
                            by_cases h4 : msgv = "Operating System"
                            · simp only [if_pos h4]
                              repeat' split
                              all_goals rfl
                            · simp only [if_neg h4]
                              by_cases h5 : msgv = "Node is a member of a replica set"
                              · simp only [if_pos h5]
                                split <;> rfl
                              · simp only [if_neg h5]
                                by_cases h6 : msgv = "New replica set config in use"
                                · simp only [if_pos h6]
                                  repeat' split
                                  all_goals rfl
                                · simp only [if_neg h6]
                                  by_cases h7 : msgv = "Options set by command line"
                                  · simp only [if_pos h7]
                                    repeat' split
                                    all_goals rfl
                                  · simp only [if_neg h7]
                                    rfl
                · simp only [if_neg hc]
                  rfl

set_option maxHeartbeats 4000000 in
set_option maxRecDepth 100000 in
/-- C2: starting from an accumulator with `complete = false`, a
successfully processed record leaves `complete = true` exactly when its
message text is "Options set by command line", its attribute bag is
present, and its component tag is allow-listed ({"CONTROL"} in the
baseline, {"CONTROL","REPL"} in the extended variant); no other record
sets `complete`. -/
theorem complete_set_only_by_options_message
    (l : LineInput) (s : Info.startupInfoT) (t : InfoExt.startupInfoT)
    (hs : s.complete = false) (ht : t.complete = false) :
    (∀ r e s' out, Info.logLine l s = GoOutcome.ok (some r, e, s', out) →
        (s'.complete = true ↔ isOptionsLineB ["CONTROL"] l = true)) ∧
    (∀ r e t' out, InfoExt.logLine l t = GoOutcome.ok (some r, e, t', out) →
        (t'.complete = true ↔ isOptionsLineB ["CONTROL", "REPL"] l = true)) := by
  obtain ⟨raw, parsed⟩ := l
  constructor
  · intro r e s' out h
    cases parsed with
    | none =>
        dsimp only [Info.logLine] at h
        split at h <;> simp at h
    | some o =>
        obtain ⟨date, sv, cv, ctxv, idv, msgv, attrv, tagsv⟩ := o
        cases date with
        | none => simp [Info.logLine] at h
        | some ts =>
            cases attrv with
            | none => simp_all [Info.logLine, isOptionsLineB]
            | some a =>
                dsimp only [Info.logLine] at h
                by_cases hc : cv = "CONTROL"
                · simp only [if_pos hc] at h
                  cases ha : asObj (some a) with
                  | none => simp [ha] at h
                  | some fields =>
                      simp only [ha] at h
                      by_cases h1 : msgv = "MongoDB starting"
                      · simp only [if_pos h1] at h
                        repeat' split at h
                        all_goals first | (simp only [GoOutcome.ok.injEq, Prod.mk.injEq] at h; obtain ⟨-, -, hst, -⟩ := h; subst hst; simp_all [isOptionsLineB]) | simp at h
                      · simp only [if_neg h1] at h
                        by_cases h3 : msgv = "Build Info"
                        · simp only [if_pos h3] at h
                          repeat' split at h
                          all_goals first | (simp only [GoOutcome.ok.injEq, Prod.mk.injEq] at h; obtain ⟨-, -, hst, -⟩ := h; subst hst; simp_all [isOptionsLineB]) | simp at h
                        · simp only [if_neg h3] at h
                          by_cases h4 : msgv = "Operating System"
                          · simp only [if_pos h4] at h
                            repeat' split at h
                            all_goals first | (simp only [GoOutcome.ok.injEq, Prod.mk.injEq] at h; obtain ⟨-, -, hst, -⟩ := h; subst hst; simp_all [isOptionsLineB]) | simp at h
                          · simp only [if_neg h4] at h
                            by_cases h7 : msgv = "Options set by command line"
                            · simp only [if_pos h7] at h
                              repeat' split at h
                              all_goals first | (simp only [GoOutcome.ok.injEq, Prod.mk.injEq] at h; obtain ⟨-, -, hst, -⟩ := h; subst hst; simp_all [isOptionsLineB]) | simp at h
                            · simp only [if_neg h7] at h
                              first | (simp only [GoOutcome.ok.injEq, Prod.mk.injEq] at h; obtain ⟨-, -, hst, -⟩ := h; subst hst; simp_all [isOptionsLineB]) | simp at h
                · simp only [if_neg hc] at h
                  first | (simp only [GoOutcome.ok.injEq, Prod.mk.injEq] at h; obtain ⟨-, -, hst, -⟩ := h; subst hst; simp_all [isOptionsLineB]) | simp at h
  · intro r e t' out h
    cases parsed with
    | none =>
        dsimp only [InfoExt.logLine] at h
        split at h <;> simp at h
    | some o =>
        obtain ⟨date, sv, cv, ctxv, idv, msgv, attrv, tagsv⟩ := o
        cases date with
        | none => simp [InfoExt.logLine] at h
        | some ts =>
            cases attrv with
            | none => simp_all [InfoExt.logLine, isOptionsLineB]
            | some a =>
                dsimp only [InfoExt.logLine] at h
                by_cases hc : cv = "CONTROL" ∨ cv = "REPL"
                · simp only [if_pos hc] at h
                  cases ha : asObj (some a) with
                  | none => simp [ha] at h
                  | some fields =>
                      simp only [ha] at h
                      by_cases h1 : msgv = "MongoDB starting"
                      · simp only [if_pos h1] at h
                        repeat' split at h
                        all_goals first | (simp only [GoOutcome.ok.injEq, Prod.mk.injEq] at h; obtain ⟨-, -, hst, -⟩ := h; subst hst; simp_all [isOptionsLineB, getConfig]) | simp at h
                      · simp only [if_neg h1] at h
                        by_cases h2 : msgv = "Process Details"
                        · simp only [if_pos h2] at h
                          repeat' split at h
                          all_goals first | (simp only [GoOutcome.ok.injEq, Prod.mk.injEq] at h; obtain ⟨-, -, hst, -⟩ := h; subst hst; simp_all [isOptionsLineB, getConfig]) | simp at h
                        · simp only [if_neg h2] at h
                          by_cases h3 : msgv = "Build Info"
                          · simp only [if_pos h3] at h
                            repeat' split at h
                            all_goals first | (simp only [GoOutcome.ok.injEq, Prod.mk.injEq] at h; obtain ⟨-, -, hst, -⟩ := h; subst hst; simp_all [isOptionsLineB, getConfig]) | simp at h
                          · simp only [if_neg h3] at h
                            by_cases h4 : msgv = "Operating System"
                            · simp only [if_pos h4] at h
                              repeat' split at h
                              all_goals first | (simp only [GoOutcome.ok.injEq, Prod.mk.injEq] at h; obtain ⟨-, -, hst, -⟩ := h; subst hst; simp_all [isOptionsLineB, getConfig]) | simp at h
                            · simp only [if_neg h4] at h
                              by_cases h5 : msgv = "Node is a member of a replica set"
                              · simp only [if_pos h5] at h
                                repeat' split at h
                                all_goals first | (simp only [GoOutcome.ok.injEq, Prod.mk.injEq] at h; obtain ⟨-, -, hst, -⟩ := h; subst hst; simp_all [isOptionsLineB, getConfig]) | simp at h
                              · simp only [if_neg h5] at h
                                by_cases h6 : msgv = "New replica set config in use"
                                · simp only [if_pos h6] at h
                                  repeat' split at h
                                  all_goals first | (simp only [GoOutcome.ok.injEq, Prod.mk.injEq] at h; obtain ⟨-, -, hst, -⟩ := h; subst hst; simp_all [isOptionsLineB, getConfig]) | simp at h
                                · simp only [if_neg h6] at h
                                  by_cases h7 : msgv = "Options set by command line"
                                  · simp only [if_pos h7] at h
                                    repeat' split at h
                                    all_goals first | (simp only [GoOutcome.ok.injEq, Prod.mk.injEq] at h; obtain ⟨-, -, hst, -⟩ := h; subst hst; simp_all [isOptionsLineB, getConfig]) | simp at h
                                  · simp only [if_neg h7] at h
                                    first | (simp only [GoOutcome.ok.injEq, Prod.mk.injEq] at h; obtain ⟨-, -, hst, -⟩ := h; subst hst; simp_all [isOptionsLineB, getConfig]) | simp at h
                · simp only [if_neg hc] at h
                  first | (simp only [GoOutcome.ok.injEq, Prod.mk.injEq] at h; obtain ⟨-, -, hst, -⟩ := h; subst hst; simp_all [isOptionsLineB, getConfig]) | simp at h

set_option maxRecDepth 100000 in
/-- C2 witness: the characterisation instantiated at the concrete
options record and the zero accumulator states. -/
theorem complete_set_only_by_options_message_witness :
    (stBaseAfterOptions.complete = true ↔
      isOptionsLineB ["CONTROL"] optionsLine = true) ∧
    (stExtAfterOptions.complete = true ↔
      isOptionsLineB ["CONTROL", "REPL"] optionsLine = true) :=
  ⟨(complete_set_only_by_options_message optionsLine {} {} rfl rfl).1
      { timeStamp := GoTime.mk 7 0 } none stBaseAfterOptions [] rfl,
   (complete_set_only_by_options_message optionsLine {} {} rfl rfl).2
      { timeStamp := GoTime.mk 7 0 } none stExtAfterOptions [] rfl⟩

set_option maxHeartbeats 1000000 in
/-- C8: in the extended variant, a "New replica set config in use"
record (attribute bag present, component allow-listed, config an
object) prints an immediate standalone notice carrying the record's
timestamp and the rendered config, returns no error, and leaves the
accumulator state exactly unchanged — in particular `complete` is never
set. -/
theorem newRsConfig_prints_notice_state_unchanged
    (l : LineInput) (t : InfoExt.startupInfoT) (o : logJSONT) (ts : GoTime)
    (fields cfg : List (String × Json))
    (hp : l.parsed = some o) (hd : o.date = some ts)
    (hc : o.c = "CONTROL" ∨ o.c = "REPL")
    (hm : o.msg = "New replica set config in use")
    (ha : o.attr = some (Json.obj fields))
    (hcfg : lookupField fields "config" = some (Json.obj cfg)) :
    InfoExt.logLine l t = GoOutcome.ok (some { timeStamp := ts }, none, t,
      ["New replica set config: " ++ ts.reprUTC ++ "\n" ++
        yamlRender (Json.obj cfg)]) := by
  obtain ⟨raw, parsed⟩ := l
  dsimp only at hp
  subst hp
  simp [InfoExt.logLine, hd, ha, hm, hcfg, hc, asObj, getConfig]

set_option maxRecDepth 100000 in
/-- C8 witness: the notice at a concrete REPL record and the zero
accumulator state, which is returned unchanged. -/
theorem newRsConfig_prints_notice_state_unchanged_witness :
    InfoExt.logLine newRsConfigLine {} =
      GoOutcome.ok (some { timeStamp := GoTime.mk 9 0 }, none, {},
        ["New replica set config: " ++ (GoTime.mk 9 0).reprUTC ++ "\n" ++
          yamlRender (Json.obj [("_id", Json.str "rs0"),
                                ("version", Json.num 2)])]) :=
  newRsConfig_prints_notice_state_unchanged newRsConfigLine {}
    (logJSONT.mk (some (GoTime.mk 9 0)) "I" "REPL" "conn3" 21392
      "New replica set config in use"
      (some (Json.obj
        [("config", Json.obj [("_id", Json.str "rs0"),
                              ("version", Json.num 2)]),
         ("numMembers", Json.num 3)])) [])
    (GoTime.mk 9 0)
    [("config", Json.obj [("_id", Json.str "rs0"), ("version", Json.num 2)]),
     ("numMembers", Json.num 3)]
    [("_id", Json.str "rs0"), ("version", Json.num 2)]
    rfl rfl (Or.inr rfl) rfl rfl rfl

set_option maxHeartbeats 1000000 in
/-- C10 (amended): in the extended variant, a "Process Details" record
whose pid string fails `strconv.Atoi` with a syntax error — an invalid
character is reached before the 64-bit accumulation overflows — is
processed without error: the discarded `Atoi` error leaves `processID`
silently set to 0 while timestamp, port and host merge normally and
`isStartup` becomes false.  (A pid whose digit scan overflows first,
even one with trailing invalid characters, is a range error instead
and saturates at the 64-bit bound, see the counterexample.) -/
theorem processDetails_syntactically_bad_pid_zero
    (l : LineInput) (t : InfoExt.startupInfoT) (o : logJSONT) (ts : GoTime)
    (fields : List (String × Json)) (p host : String) (port : Int)
    (hp : l.parsed = some o) (hd : o.date = some ts)
    (hc : o.c = "CONTROL" ∨ o.c = "REPL")
    (hm : o.msg = "Process Details")
    (ha : o.attr = some (Json.obj fields))
    (hpid : lookupField fields "pid" = some (Json.str p))
    (hport : lookupField fields "port" = some (Json.num port))
    (hhost : lookupField fields "host" = some (Json.str host))
    (hbad : goAtoi p = AtoiRes.errSyntax) :
    InfoExt.logLine l t = GoOutcome.ok (some { timeStamp := ts }, none,
      { t with
        isStartup := false, timeStamp := ts, processID := 0,
        port := port, hostName := host }, []) := by
  obtain ⟨raw, parsed⟩ := l
  dsimp only at hp
  subst hp
  simp [InfoExt.logLine, hd, ha, hm, hpid, hport, hhost, hc, asObj, asStr, asNum,
    hbad, atoiValue]

set_option maxRecDepth 100000 in
/-- C10 witness: the silent zero pid at a concrete record whose pid
string "one6875" is not syntactically an integer. -/
theorem processDetails_syntactically_bad_pid_zero_witness :
    goAtoi "one6875" = AtoiRes.errSyntax ∧
    InfoExt.logLine badPidLine {} = GoOutcome.ok
      (some { timeStamp := GoTime.mk 5 0 }, none,
       { ({} : InfoExt.startupInfoT) with
         isStartup := false,
         timeStamp := GoTime.mk 5 0, processID := 0,
         port := 27017, hostName := "pd3lon-mdb-07" }, []) :=
  ⟨rfl,
   processDetails_syntactically_bad_pid_zero badPidLine {}
     (logJSONT.mk (some (GoTime.mk 5 0)) "I" "CONTROL" "initandlisten" 4615611
       "Process Details"
       (some (Json.obj [("pid", Json.str "one6875"),
                        ("port", Json.num 27017),
                        ("host", Json.str "pd3lon-mdb-07")])) [])
     (GoTime.mk 5 0)
     [("pid", Json.str "one6875"), ("port", Json.num 27017),
      ("host", Json.str "pd3lon-mdb-07")]
     "one6875" "pd3lon-mdb-07" 27017
     rfl rfl (Or.inl rfl) rfl rfl rfl rfl rfl rfl⟩

set_option maxRecDepth 100000 in
/-- C10 counterexample: pid strings that do not parse as a (64-bit)
integer are not all mapped to 0.  `strconv.Atoi` stops scanning at the
first overflow and returns the saturated bound with a range error —
for a pure out-of-range pid and equally for one with trailing invalid
characters after the overflowing prefix — so with the error discarded
`processID` becomes MaxInt64, not 0. -/
theorem processDetails_out_of_range_pid_not_zero :
    goAtoi "99999999999999999999" = AtoiRes.errRange maxInt64 ∧
    goAtoi "99999999999999999999x" = AtoiRes.errRange maxInt64 ∧
    InfoExt.logLine hugePidLine {} = GoOutcome.ok
      (some { timeStamp := GoTime.mk 5 0 }, none,
       { ({} : InfoExt.startupInfoT) with
         isStartup := false,
         timeStamp := GoTime.mk 5 0, processID := 9223372036854775807,
         port := 27017, hostName := "pd3lon-mdb-07" }, []) ∧
    InfoExt.logLine hugePidXLine {} = GoOutcome.ok
      (some { timeStamp := GoTime.mk 5 0 }, none,
       { ({} : InfoExt.startupInfoT) with
         isStartup := false,
         timeStamp := GoTime.mk 5 0, processID := 9223372036854775807,
         port := 27017, hostName := "pd3lon-mdb-07" }, []) ∧
    (9223372036854775807 : Int) ≠ 0 :=
  ⟨rfl, rfl, rfl, rfl, by decide⟩

theorem reportIfComplete_preserves_bounds (ps : Info.PassState) :
    (Info.reportIfComplete ps).firstTime = ps.firstTime ∧
    (Info.reportIfComplete ps).earliest = ps.earliest ∧
    (Info.reportIfComplete ps).latest = ps.latest := by
  unfold Info.reportIfComplete
  split <;> exact ⟨rfl, rfl, rfl⟩

theorem updateBounds_of_firstTime (ps : Info.PassState) (m : logT)
    (h : ps.firstTime = true) :
    Info.updateBounds ps m =
      { ps with
        firstTime := false, earliest := m.timeStamp, latest := m.timeStamp } := by
  unfold Info.updateBounds
  simp [h]

theorem updateBounds_of_not_firstTime (ps : Info.PassState) (m : logT)
    (h : ps.firstTime = false) :
    (Info.updateBounds ps m).firstTime = false ∧
    (Info.updateBounds ps m).earliest.instant =
      min ps.earliest.instant m.timeStamp.instant ∧
    (Info.updateBounds ps m).latest.instant =
      max ps.latest.instant m.timeStamp.instant := by
  unfold Info.updateBounds
  simp only [h, Bool.false_eq_true, if_false, GoTime.before, GoTime.after]
  split <;> split <;>
    simp_all <;> omega

set_option maxHeartbeats 4000000 in
set_option maxRecDepth 100000 in
theorem logLine_record_eq (l : LineInput) (s : Info.startupInfoT)
    (r : Option logT) (e : Option String) (s' : Info.startupInfoT)
    (out : List String)
    (h : Info.logLine l s = GoOutcome.ok (r, e, s', out)) :
    r = lineRecord l := by
  obtain ⟨raw, parsed⟩ := l
  cases parsed with
  | none =>
      dsimp only [Info.logLine] at h
      split at h <;>
        first | (simp only [GoOutcome.ok.injEq, Prod.mk.injEq] at h; simp_all [lineRecord, lineDate]) | simp at h
  | some o =>
      obtain ⟨date, sv, cv, ctxv, idv, msgv, attrv, tagsv⟩ := o
      cases date with
      | none =>
          dsimp only [Info.logLine] at h
          simp only [GoOutcome.ok.injEq, Prod.mk.injEq] at h
          simp_all [lineRecord, lineDate]
      | some ts =>
          cases attrv with
          | none =>
              dsimp only [Info.logLine] at h
              simp only [GoOutcome.ok.injEq, Prod.mk.injEq] at h
              simp_all [lineRecord, lineDate]
          | some a =>
              dsimp only [Info.logLine] at h
              by_cases hc : cv = "CONTROL"
              · simp only [if_pos hc] at h
                cases ha : asObj (some a) with
                | none => simp [ha] at h
                | some fields =>
                    simp only [ha] at h
                    by_cases h1 : msgv = "MongoDB starting"
                    · simp only [if_pos h1] at h
                      repeat' split at h
                      all_goals first | (simp only [GoOutcome.ok.injEq, Prod.mk.injEq] at h; simp_all [lineRecord, lineDate]) | simp at h
                    · simp only [if_neg h1] at h
                      by_cases h3 : msgv = "Build Info"
                      · simp only [if_pos h3] at h
                        repeat' split at h
                        all_goals first | (simp only [GoOutcome.ok.injEq, Prod.mk.injEq] at h; simp_all [lineRecord, lineDate]) | simp at h
                      · simp only [if_neg h3] at h
                        by_cases h4 : msgv = "Operating System"
                        · simp only [if_pos h4] at h
                          repeat' split at h
                          all_goals first | (simp only [GoOutcome.ok.injEq, Prod.mk.injEq] at h; simp_all [lineRecord, lineDate]) | simp at h
                        · simp only [if_neg h4] at h
                          by_cases h7 : msgv = "Options set by command line"
                          · simp only [if_pos h7] at h
                            repeat' split at h
                            all_goals first | (simp only [GoOutcome.ok.injEq, Prod.mk.injEq] at h; simp_all [lineRecord, lineDate]) | simp at h
                          · simp only [if_neg h7] at h
                            simp only [GoOutcome.ok.injEq, Prod.mk.injEq] at h
                            simp_all [lineRecord, lineDate]
              · simp only [if_neg hc] at h
                simp only [GoOutcome.ok.injEq, Prod.mk.injEq] at h
                simp_all [lineRecord, lineDate]

theorem lineDate_of_record_none (l : LineInput) (h : none = lineRecord l) :
    lineDate l = none := by
  unfold lineRecord at h
  cases hl : lineDate l with
  | none => rfl
  | some ts => rw [hl] at h; simp at h

theorem lineDate_of_record_some (l : LineInput) (m : logT)
    (h : some m = lineRecord l) : lineDate l = some m.timeStamp := by
  unfold lineRecord at h
  cases hl : lineDate l with
  | none => rw [hl] at h; simp at h
  | some ts =>
      rw [hl] at h
      simp only [Option.map_some'] at h
      cases h
      rfl

set_option maxHeartbeats 4000000 in
theorem listLoop_ok_bounds (fileName : String) :
    ∀ (lines : LineList) (ps psf : Info.PassState),
      Info.listLoop fileName lines ps = PassRes.ok psf →
      ps.firstTime = false →
      psf.firstTime = false ∧
      psf.earliest.instant =
        ((decodedTimes lines).map GoTime.instant).foldl min ps.earliest.instant ∧
      psf.latest.instant =
        ((decodedTimes lines).map GoTime.instant).foldl max ps.latest.instant ∧
      (decodedTimes lines = [] →
        psf.earliest = ps.earliest ∧ psf.latest = ps.latest) := by
  intro lines
  induction lines with
  | nil =>
      intro ps psf h hft
      simp only [Info.listLoop] at h
      cases h
      simp [decodedTimes, hft]
  | cons l rest ih =>
      intro ps psf h hft
      simp only [Info.listLoop] at h
      cases heq : Info.logLine l ps.startupInfo with
      | panicked => rw [heq] at h; simp at h
      | ok tup =>
          obtain ⟨logMsgOpt, err, st, printed⟩ := tup
          rw [heq] at h
          dsimp only at h
          cases logMsgOpt with
          | none =>
              have hld : lineDate l = none :=
                lineDate_of_record_none l (logLine_record_eq l ps.startupInfo _ _ _ _ heq)
              obtain ⟨f1, f2, f3, f4⟩ := ih _ psf h hft
              simp only [decodedTimes, List.filterMap_cons, hld] at *
              exact ⟨f1, f2, f3, f4⟩
          | some logMsg =>
              cases err with
              | some e => simp at h
              | none =>
                  have hld : lineDate l = some logMsg.timeStamp :=
                    lineDate_of_record_some l logMsg
                      (logLine_record_eq l ps.startupInfo _ _ _ _ heq)
                  have hub := updateBounds_of_not_firstTime
                    { ps with
                      lineCount := ps.lineCount + 1,
                      startupInfo := st, out := ps.out ++ printed } logMsg hft
                  have hrp := reportIfComplete_preserves_bounds
                    (Info.updateBounds
                      { ps with
                        lineCount := ps.lineCount + 1,
                        startupInfo := st, out := ps.out ++ printed } logMsg)
                  obtain ⟨f1, f2, f3, f4⟩ := ih _ psf h (hrp.1.trans hub.1)
                  refine ⟨f1, ?_, ?_, ?_⟩
                  · rw [f2, hrp.2.1, hub.2.1]
                    simp [decodedTimes, List.filterMap_cons, hld]
                  · rw [f3, hrp.2.2, hub.2.2]
                    simp [decodedTimes, List.filterMap_cons, hld]
                  · intro habs
                    simp [decodedTimes, List.filterMap_cons, hld] at habs

set_option maxHeartbeats 4000000 in
theorem listLoop_ok_bounds_first (fileName : String) :
    ∀ (lines : LineList) (ps psf : Info.PassState),
      Info.listLoop fileName lines ps = PassRes.ok psf →
      ps.firstTime = true →
      (decodedTimes lines = [] →
        psf.firstTime = true ∧ psf.earliest = ps.earliest ∧
        psf.latest = ps.latest) ∧
      (∀ t ts, decodedTimes lines = t :: ts →
        psf.firstTime = false ∧
        psf.earliest.instant = (ts.map GoTime.instant).foldl min t.instant ∧
        psf.latest.instant = (ts.map GoTime.instant).foldl max t.instant ∧
        (ts = [] → psf.earliest = t ∧ psf.latest = t)) := by
  intro lines
  induction lines with
  | nil =>
      intro ps psf h hft
      simp only [Info.listLoop] at h
      cases h
      constructor
      · intro
        exact ⟨hft, rfl, rfl⟩
      · intro t ts hd
        simp [decodedTimes] at hd
  | cons l rest ih =>
      intro ps psf h hft
      simp only [Info.listLoop] at h
      cases heq : Info.logLine l ps.startupInfo with
      | panicked => rw [heq] at h; simp at h
      | ok tup =>
          obtain ⟨logMsgOpt, err, st, printed⟩ := tup
          rw [heq] at h
          dsimp only at h
          cases logMsgOpt with
          | none =>
              have hld : lineDate l = none :=
                lineDate_of_record_none l (logLine_record_eq l ps.startupInfo _ _ _ _ heq)
              obtain ⟨f1, f2⟩ := ih _ psf h hft
              simp only [decodedTimes, List.filterMap_cons, hld] at *
              exact ⟨f1, f2⟩
          | some logMsg =>
              cases err with
              | some e => simp at h
              | none =>
                  have hld : lineDate l = some logMsg.timeStamp :=
                    lineDate_of_record_some l logMsg
                      (logLine_record_eq l ps.startupInfo _ _ _ _ heq)
                  dsimp only at h
                  rw [updateBounds_of_firstTime
                    { ps with
                      lineCount := ps.lineCount + 1,
                      startupInfo := st, out := ps.out ++ printed } logMsg hft] at h
                  have hrp := reportIfComplete_preserves_bounds
                    { ps with
                      lineCount := ps.lineCount + 1,
                      startupInfo := st, out := ps.out ++ printed,
                      firstTime := false, earliest := logMsg.timeStamp,
                      latest := logMsg.timeStamp }
                  obtain ⟨f1, f2, f3, f4⟩ := listLoop_ok_bounds fileName rest _ psf h
                    (by rw [hrp.1])
                  constructor
                  · intro habs
                    simp [decodedTimes, List.filterMap_cons, hld] at habs
                  · intro t ts hd
                    simp only [decodedTimes, List.filterMap_cons, hld,
                      List.cons.injEq] at hd
                    obtain ⟨hdt, hdts⟩ := hd
                    subst hdt
                    refine ⟨f1, ?_, ?_, ?_⟩
                    · rw [f2, hrp.2.1]
                      simp [decodedTimes, hdts]
                    · rw [f3, hrp.2.2]
                      simp [decodedTimes, hdts]
                    · intro hts
                      subst hts
                      have := f4 (by simpa [decodedTimes] using hdts.symm)
                      rw [this.1, this.2, hrp.2.1, hrp.2.2]
                      exact ⟨rfl, rfl⟩

theorem min?_perm_eq (l1 l2 : List Int) (hp : l1.Perm l2) : l1.min? = l2.min? := by
  haveI : Std.Antisymm (fun (x y : Int) => x ≤ y) :=
    ⟨fun h1 h2 => le_antisymm h1 h2⟩
  cases h1 : l1.min? with
  | none =>
      rw [List.min?_eq_none_iff] at h1
      subst h1
      rw [List.min?_eq_none_iff.mpr hp.symm.eq_nil]
  | some a =>
      rw [List.min?_eq_some_iff (fun a => le_refl a) (fun a b => min_choice a b)
        (fun a b c => le_min_iff)] at h1
      exact (List.min?_eq_some_iff (fun a => le_refl a) (fun a b => min_choice a b)
        (fun a b c => le_min_iff)).mpr
        ⟨hp.mem_iff.mp h1.1, fun b hb => h1.2 b (hp.mem_iff.mpr hb)⟩ |>.symm

theorem max?_perm_eq (l1 l2 : List Int) (hp : l1.Perm l2) : l1.max? = l2.max? := by
  haveI : Std.Antisymm (fun (x y : Int) => x ≤ y) :=
    ⟨fun h1 h2 => le_antisymm h1 h2⟩
  cases h1 : l1.max? with
  | none =>
      rw [List.max?_eq_none_iff] at h1
      subst h1
      rw [List.max?_eq_none_iff.mpr hp.symm.eq_nil]
  | some a =>
      rw [List.max?_eq_some_iff (fun a => le_refl a) (fun a b => max_choice a b)
        (fun a b c => max_le_iff)] at h1
      exact (List.max?_eq_some_iff (fun a => le_refl a) (fun a b => max_choice a b)
        (fun a b c => max_le_iff)).mpr
        ⟨hp.mem_iff.mp h1.1, fun b hb => h1.2 b (hp.mem_iff.mpr hb)⟩ |>.symm

theorem list_ok_bounds (fileName : String) (lines : LineList)
    (ps : Info.PassState) (h : Info.List fileName lines = PassRes.ok ps)
    (t : GoTime) (ts : List GoTime) (hd : decodedTimes lines = t :: ts) :
    ((decodedTimes lines).map GoTime.instant).min? = some ps.earliest.instant ∧
    ((decodedTimes lines).map GoTime.instant).max? = some ps.latest.instant ∧
    (ts = [] → ps.earliest = t ∧ ps.latest = t ∧ ps.latest.sub ps.earliest = 0) := by
  unfold Info.List at h
  cases hloop : Info.listLoop fileName lines Info.initialPassState with
  | fail e => rw [hloop] at h; simp at h
  | panicked => rw [hloop] at h; simp at h
  | ok ps0 =>
      rw [hloop] at h
      dsimp only at h
      simp only [PassRes.ok.injEq] at h
      subst h
      have hfirst := (listLoop_ok_bounds_first fileName lines
        Info.initialPassState ps0 hloop rfl).2 t ts hd
      rw [hd]
      refine ⟨?_, ?_, ?_⟩
      · simp only [List.map_cons, List.min?_cons']
        exact congrArg some hfirst.2.1.symm
      · simp only [List.map_cons, List.max?_cons']
        exact congrArg some hfirst.2.2.1.symm
      · intro hts
        obtain ⟨he, hl⟩ := hfirst.2.2.2 hts
        exact ⟨he, hl, by rw [he, hl]; simp [GoTime.sub]⟩

set_option maxHeartbeats 1000000 in
/-- C6: if the baseline pass succeeds on a file with at least one
decodable record, the reported range is exactly [minimum, maximum] of
the decodable records' timestamps; the result is invariant under any
reordering of the decodable records; and a single-record file reports
earliest = latest with zero duration. -/
theorem list_reports_min_max_range
    (fileName : String) (lines : LineList) (ps : Info.PassState)
    (h : Info.List fileName lines = PassRes.ok ps)
    (t : GoTime) (ts : List GoTime)
    (hd : decodedTimes lines = t :: ts) :
    ((decodedTimes lines).map GoTime.instant).min? = some ps.earliest.instant ∧
    ((decodedTimes lines).map GoTime.instant).max? = some ps.latest.instant ∧
    (ts = [] → ps.earliest = t ∧ ps.latest = t ∧
      ps.latest.sub ps.earliest = 0) ∧
    (∀ lines2 ps2, Info.List fileName lines2 = PassRes.ok ps2 →
      (decodedTimes lines2).Perm (decodedTimes lines) →
      ps2.earliest.instant = ps.earliest.instant ∧
      ps2.latest.instant = ps.latest.instant) := by
  obtain ⟨hmin, hmax, hsingle⟩ := list_ok_bounds fileName lines ps h t ts hd
  refine ⟨hmin, hmax, hsingle, ?_⟩
  intro lines2 ps2 h2 hperm
  cases hd2 : decodedTimes lines2 with
  | nil =>
      rw [hd2, hd] at hperm
      have := hperm.symm.eq_nil
      simp at this
  | cons t2 ts2 =>
      obtain ⟨hmin2, hmax2, -⟩ := list_ok_bounds fileName lines2 ps2 h2 t2 ts2 hd2
      have hpm : ((decodedTimes lines2).map GoTime.instant).Perm
          ((decodedTimes lines).map GoTime.instant) := hperm.map _
      constructor
      · have : some ps2.earliest.instant = some ps.earliest.instant := by
          rw [← hmin2, min?_perm_eq _ _ hpm, hmin]
        exact Option.some.injEq _ _ ▸ this
      · have : some ps2.latest.instant = some ps.latest.instant := by
          rw [← hmax2, max?_perm_eq _ _ hpm, hmax]
        exact Option.some.injEq _ _ ▸ this

set_option maxRecDepth 100000 in
/-- C6 witness: the range of the concrete one-record file, which
reports earliest = latest = the record's timestamp and zero duration. -/
theorem list_reports_min_max_range_witness :
    ((decodedTimes [goodRecordLine]).map GoTime.instant).min? =
      some psSingle.earliest.instant ∧
    ((decodedTimes [goodRecordLine]).map GoTime.instant).max? =
      some psSingle.latest.instant ∧
    (psSingle.earliest = GoTime.mk 42 0 ∧ psSingle.latest = GoTime.mk 42 0 ∧
      psSingle.latest.sub psSingle.earliest = 0) ∧
    (psSingle.earliest.instant = psSingle.earliest.instant ∧
      psSingle.latest.instant = psSingle.latest.instant) :=
  have h := list_reports_min_max_range "single.log" [goodRecordLine] psSingle
    rfl (GoTime.mk 42 0) [] rfl
  ⟨h.1, h.2.1, h.2.2.1 rfl,
   h.2.2.2 [goodRecordLine] psSingle rfl (List.Perm.refl _)⟩
